import Mathlib

/-!
Shallow embedding of the resampling-and-metric pipeline of
`src/Home.py.py` (Streamlit/pandas dashboard "Análise Pluviométrica - ANA").

Modelling conventions:
* A pandas DataFrame row of the raw dataset is a `Row`; the frame itself is a
  `Dataset` carrying presence flags for the required columns (`estado`,
  `EstacaoCodigo`, `Ano`, `Mes`) and for the 31 optional `ChuvaNN` columns,
  so that pandas `KeyError` behaviour on missing columns can be modelled.
* Region labels (`estado`) and station codes (`EstacaoCodigo`) are modelled as
  natural-number codes; numeric cell values are exact rationals (the Python
  floats are modelled by ℚ).
* `pd.Timestamp` values produced by `pd.to_datetime(dict(year, month, day),
  errors='coerce')` are modelled as the pair `(year, day-of-year)`; on valid
  Gregorian dates this pairing is in bijection with the timestamp, equality of
  pairs matches equality of timestamps, lexicographic order matches timestamp
  order, and same-year timestamp differences in days are differences of the
  day-of-year components.  Invalid dates (`NaT`) are dropped by the subsequent
  `dropna`, modelled by filtering on calendar validity.
* Exceptions raised by pandas (`KeyError` for missing columns,
  `ValueError` from `.sample`) are modelled by `Except PErr`.
* `DataFrameGroupBy.sample(frac=..., random_state=seed)` draws, per group,
  `round(frac * group_size)` rows (Python banker's rounding) without
  replacement; the seeded pseudo-random permutation itself is a library
  internal, modelled here by the deterministic permutation `permuteSeed`
  (a seed-dependent rotation).  Everything the claims depend on — determinism
  in the seed, per-group sample size, sampling without replacement from the
  group — is preserved.
* numpy/pandas `.round(2)` is half-to-even rounding at two decimals,
  modelled exactly on ℚ by `roundHalfEven`/`round2`.
-/

namespace Ana

/-! ### Rounding: Python `round` / numpy half-to-even -/

/-- Python's built-in `round` (and numpy's `np.round`): round half to even. -/
def roundHalfEven (q : ℚ) : ℤ :=
  if q - ⌊q⌋ = 1/2 then (if 2 ∣ ⌊q⌋ then ⌊q⌋ else ⌊q⌋ + 1) else round q

/-- pandas `.round(2)`: half-to-even rounding at two decimal places. -/
def round2 (q : ℚ) : ℚ := (roundHalfEven (q * 100) : ℚ) / 100

/-! ### Calendar utility -/

/-- `get_dias_ano` of `processar_dados_complexos` (line 144-145), identical to
`get_dias_ano_teste` of `executar_teste_estabilidade` (line 244-245):
`366 if (ano % 4 == 0 and ano % 100 != 0) or (ano % 400 == 0) else 365`.
Python `%` on a positive modulus agrees with `Int.emod`. -/
def get_dias_ano (ano : ℤ) : ℤ :=
  if (ano % 4 = 0 ∧ ano % 100 ≠ 0) ∨ ano % 400 = 0 then 366 else 365

/-- Length of a month in the (proleptic) Gregorian calendar, as used by
`pd.to_datetime` to decide validity of a (year, month, day) triple. -/
def diasMes (ano mes : ℤ) : ℤ :=
  if mes = 2 then (if (ano % 4 = 0 ∧ ano % 100 ≠ 0) ∨ ano % 400 = 0 then 29 else 28)
  else if mes = 4 ∨ mes = 6 ∨ mes = 9 ∨ mes = 11 then 30
  else 31

/-- Validity of a (year, month, day) triple: exactly the triples on which
`pd.to_datetime(..., errors='coerce')` yields a timestamp rather than `NaT`. -/
def dataValida (ano mes dia : ℤ) : Bool :=
  decide (1 ≤ mes ∧ mes ≤ 12 ∧ 1 ≤ dia ∧ dia ≤ diasMes ano mes)

/-- Days in the months of `ano` strictly before month `mes` (for `mes ≤ 12`). -/
def diasAcum (ano mes : ℤ) : ℤ :=
  (if 2 ≤ mes then 31 else 0) + (if 3 ≤ mes then diasMes ano 2 else 0) +
  (if 4 ≤ mes then 31 else 0) + (if 5 ≤ mes then 30 else 0) +
  (if 6 ≤ mes then 31 else 0) + (if 7 ≤ mes then 30 else 0) +
  (if 8 ≤ mes then 31 else 0) + (if 9 ≤ mes then 31 else 0) +
  (if 10 ≤ mes then 30 else 0) + (if 11 ≤ mes then 31 else 0) +
  (if 12 ≤ mes then 30 else 0)

/-- Ordinal day within the year of a valid (year, month, day) triple. -/
def diaDoAno (ano mes dia : ℤ) : ℤ := diasAcum ano mes + dia

/-! ### Data model -/

/-- One raw record: a row of the input frame restricted to the columns the
pipeline reads — `EstacaoCodigo`, `estado`, `Ano`, `Mes` and the daily
rainfall cells `Chuva01..Chuva31` (`none` models a NaN cell). -/
structure Row where
  estacao : ℕ
  estado  : ℕ
  ano     : ℤ
  mes     : ℤ
  chuva   : Fin 31 → Option ℚ

/-- The input frame: which of the columns the pipeline touches are present
(pandas raises `KeyError` when a used column is absent), plus the rows. -/
structure Dataset where
  hasEstado  : Bool
  hasEstacao : Bool
  hasAno     : Bool
  hasMes     : Bool
  chuvaPresent : Fin 31 → Bool
  rows : List Row

/-- Column tags, for modelling pandas `KeyError`. -/
inductive Col where
  | estado | estacaoCodigo | ano | mes
  deriving DecidableEq, Repr

/-- Exceptions the pipeline can raise: `KeyError` on a missing column;
`ValueError` from `sample` for `frac > 1` ("Replace has to be set to `True`
when upsampling the population `frac` > 1.") and for `frac < 0` ("A negative
number of rows requested."). -/
inductive PErr where
  | keyError (c : Col)
  | valueErrorUpsample
  | valueErrorNegative
  deriving DecidableEq, Repr

/-- One long-format row after `melt` + `dropna(subset=['Valor'])` +
`Dia = int(Dia_str.replace('Chuva',''))`: only non-null daily values
become rows. -/
structure ObsRow where
  estacao : ℕ
  estado  : ℕ
  ano     : ℤ
  mes     : ℤ
  dia     : ℤ
  valor   : ℚ
  deriving DecidableEq, Repr

/-- A long-format row after `Data_Real` construction and
`dropna(subset=['Data_Real'])`: `dataReal` is the `(year, day-of-year)`
encoding of the timestamp. -/
structure ObsD where
  estacao  : ℕ
  estado   : ℕ
  ano      : ℤ
  mes      : ℤ
  dia      : ℤ
  valor    : ℚ
  dataReal : ℤ × ℤ
  deriving DecidableEq, Repr

/-- One row of `df_final` before the final column selection: per
station-year metrics (the source also computes `Intervalo_Min`, which the
final `colunas_finais` selection drops). `estado` is `none` when the left
merge with `estacoes_sorteadas` finds no match. -/
structure MetricFull where
  estacao        : ℕ
  estado         : Option ℕ
  ano            : ℤ
  completude     : ℚ
  intervaloMax   : ℤ
  intervaloMedio : ℚ
  intervaloMin   : ℤ
  diasComDados   : ℕ
  deriving DecidableEq, Repr

/-! ### Generic list helpers mirroring pandas primitives -/

/-- `drop_duplicates(subset=key, keep='first')`: keep the first occurrence of
each key. `seen` accumulates the keys already kept. -/
def dedupByKeyAux {α β : Type} (k : α → β) [DecidableEq β] : List β → List α → List α
  | _, [] => []
  | seen, x :: xs =>
    if k x ∈ seen then dedupByKeyAux k seen xs
    else x :: dedupByKeyAux k (k x :: seen) xs

/-- `drop_duplicates(subset=key, keep='first')`. -/
def dedupByKey {α β : Type} (k : α → β) [DecidableEq β] (l : List α) : List α :=
  dedupByKeyAux k [] l

/-- Insert into a (sorted) list: auxiliary for `ordenaBy`. -/
def insere {α : Type} (le : α → α → Bool) (x : α) : List α → List α
  | [] => [x]
  | y :: ys => if le x y then x :: y :: ys else y :: insere le x ys

/-- `sort_values` on a key with no ties (all sort keys used in the source are
applied to key-deduplicated frames, so stability is immaterial): insertion
sort. -/
def ordenaBy {α : Type} (le : α → α → Bool) : List α → List α
  | [] => []
  | x :: xs => insere le x (ordenaBy le xs)

/-- Arithmetic mean of a list of rationals; `none` models pandas' NaN mean of
an empty (or all-NaN) column. -/
def mediaQ (l : List ℚ) : Option ℚ :=
  if l.isEmpty then none else some (l.sum / l.length)

/-- `max` aggregation with `skipna` semantics: `none` models NaN. -/
def maxZ : List ℤ → Option ℤ
  | [] => none
  | a :: rest => some (rest.foldl max a)

/-- `min` aggregation with `skipna` semantics: `none` models NaN. -/
def minZ : List ℤ → Option ℤ
  | [] => none
  | a :: rest => some (rest.foldl min a)

/-- `Series.diff()` within one group: consecutive differences (the first
element's NaN, skipped by the skipna aggregations, is not materialised). -/
def diffs : List ℤ → List ℤ
  | [] => []
  | [_] => []
  | a :: b :: rest => (b - a) :: diffs (b :: rest)

/-! ### Sampler (`groupby('estado').sample(frac=..., random_state=seed)`) -/

/-- Deterministic stand-in for the library's seeded pseudo-random permutation
of a group (a seed-dependent rotation).  The sampler's contract — a
permutation determined by the seed alone — is what the claims use; the exact
permutation is a numpy internal. -/
def permuteSeed {α : Type} (seed : ℕ) (l : List α) : List α :=
  l.drop (seed % (l.length + 1)) ++ l.take (seed % (l.length + 1))

/-- Per-group sample: `round(frac * group_size)` rows (Python banker's
rounding) of the seed-permuted group, without replacement. -/
def amostraGrupo (frac : ℚ) (seed : ℕ) (g : List (ℕ × ℕ)) : List (ℕ × ℕ) :=
  (permuteSeed seed g).take (roundHalfEven (frac * g.length)).toNat

/-- The distinct `estado` keys of the station pairs, in ascending order
(pandas `groupby` sorts group keys). -/
def chavesEstados (pairs : List (ℕ × ℕ)) : List ℕ :=
  ordenaBy (fun a b => decide (a ≤ b)) (dedupByKey id (pairs.map Prod.fst))

/-- All groups sampled and concatenated (the `(estado, EstacaoCodigo)` pairs
selected by `groupby('estado').sample(frac=frac, random_state=seed)`). -/
def amostraTodas (frac : ℚ) (seed : ℕ) (pairs : List (ℕ × ℕ)) : List (ℕ × ℕ) :=
  (chavesEstados pairs).flatMap
    (fun k => amostraGrupo frac seed (pairs.filter (fun p => decide (p.1 = k))))

/-- `estacoes_unicas.groupby('estado').sample(frac=frac, random_state=seed)`.
pandas ≥ 2.x first short-circuits on an empty frame — `GroupBy.sample` begins
with `if self._selected_obj.empty: return self._selected_obj` (GH48459), so an
empty station frame yields the empty selection *without* validating `frac`.
Otherwise the parameter validation of
`pandas.core.sample.process_sampling_size` runs: `frac > 1` without
replacement and `frac < 0` each raise `ValueError`. -/
def sampleStations (frac : ℚ) (seed : ℕ) (pairs : List (ℕ × ℕ)) :
    Except PErr (List (ℕ × ℕ)) :=
  if pairs.isEmpty then .ok []
  else if 1 < frac then .error .valueErrorUpsample
  else if frac < 0 then .error .valueErrorNegative
  else .ok (amostraTodas frac seed pairs)

/-! ### Pipeline stages of `processar_dados_complexos` -/

/-- `df_input[['estado', 'EstacaoCodigo']].drop_duplicates()` (line 76):
raises `KeyError` if either column is absent. -/
def estacoesUnicas (d : Dataset) : Except PErr (List (ℕ × ℕ)) :=
  if d.hasEstado = false then .error (.keyError .estado)
  else if d.hasEstacao = false then .error (.keyError .estacaoCodigo)
  else .ok (dedupByKey id (d.rows.map (fun r => (r.estado, r.estacao))))

/-- Lines 76-77: unique `(estado, EstacaoCodigo)` pairs, then the stratified
sample with `random_state=42`. -/
def amostragem (d : Dataset) (frac : ℚ) : Except PErr (List (ℕ × ℕ)) :=
  match estacoesUnicas d with
  | .error e => .error e
  | .ok eu => sampleStations frac 42 eu

/-- Line 80: `df_input[df_input['EstacaoCodigo'].isin(estacoes_sorteadas['EstacaoCodigo'])]`. -/
def dfAmostra (d : Dataset) (sorteadas : List (ℕ × ℕ)) : Dataset :=
  { d with rows := d.rows.filter (fun r => decide (r.estacao ∈ sorteadas.map Prod.snd)) }

/-- Lines 83-85: `drop_duplicates(subset=['EstacaoCodigo', 'Ano', 'Mes'])`
plus the removed-row count (the number in `msg_duplicatas_mes`); `KeyError`
if `Ano` or `Mes` is absent. -/
def dedupMes (d : Dataset) : Except PErr (Dataset × ℕ) :=
  if d.hasAno = false then .error (.keyError .ano)
  else if d.hasMes = false then .error (.keyError .mes)
  else
    let rows2 := dedupByKey (fun r : Row => (r.estacao, r.ano, r.mes)) d.rows
    .ok ({ d with rows := rows2 }, d.rows.length - rows2.length)

/-- The `ChuvaNN` columns actually present, in `Chuva01..Chuva31` order
(line 88-91: `colunas_existentes`). -/
def colunasExistentes (d : Dataset) : List (Fin 31) :=
  (List.finRange 31).filter (fun c => d.chuvaPresent c)

/-- Lines 93-102: `melt` stacks one block per value column, then
`dropna(subset=['Valor'])` keeps only non-null cells, and
`Dia = int(Dia_str.replace('Chuva', ''))` recovers the day number. -/
def meltDropna (d : Dataset) : List ObsRow :=
  (colunasExistentes d).flatMap (fun c =>
    d.rows.filterMap (fun r =>
      (r.chuva c).map (fun v =>
        { estacao := r.estacao, estado := r.estado, ano := r.ano, mes := r.mes,
          dia := (c : ℤ) + 1, valor := v })))

/-- Lines 105-111: `Data_Real = to_datetime(..., errors='coerce')` followed by
`dropna(subset=['Data_Real'])`: rows with an invalid calendar date are
silently dropped, the rest get the `(year, day-of-year)` timestamp. -/
def comDatas (l : List ObsRow) : List ObsD :=
  (l.filter (fun o => dataValida o.ano o.mes o.dia)).map (fun o =>
    { estacao := o.estacao, estado := o.estado, ano := o.ano, mes := o.mes,
      dia := o.dia, valor := o.valor,
      dataReal := (o.ano, diaDoAno o.ano o.mes o.dia) })

/-- The `(EstacaoCodigo, Data_Real)` deduplication key. -/
def chaveDia (o : ObsD) : ℕ × ℤ × ℤ := (o.estacao, o.dataReal)

/-- Lines 113-116: `drop_duplicates(subset=['EstacaoCodigo', 'Data_Real'])`
plus the removed-row count (the number in `msg_duplicatas_dia`). -/
def dedupDia (l : List ObsD) : List ObsD × ℕ :=
  let l2 := dedupByKey chaveDia l
  (l2, l.length - l2.length)

/-- The Record Normalizer tail applied to the month-deduplicated frame:
melt, date construction/validation, and the `(station, date)` dedup with its
diagnostic count. -/
def normalizados (d : Dataset) : List ObsD × ℕ :=
  dedupDia (comDatas (meltDropna d))

/-- Line 119: `sort_values(['EstacaoCodigo', 'Data_Real'])` (the sort key is
the `(station, date)` dedup key, so it has no ties). -/
def ordenaObs (l : List ObsD) : List ObsD :=
  ordenaBy (fun a b => decide (a.estacao < b.estacao ∨ (a.estacao = b.estacao ∧
    (a.dataReal.1 < b.dataReal.1 ∨ (a.dataReal.1 = b.dataReal.1 ∧
      a.dataReal.2 ≤ b.dataReal.2))))) l

/-! ### Metric Aggregator (lines 122-155) -/

/-- The `groupby(['EstacaoCodigo', 'Ano'])` key. -/
def gkey (o : ObsD) : ℕ × ℤ := (o.estacao, o.ano)

/-- The group keys in order of first appearance (on the date-sorted frame
this is exactly pandas' sorted group-key order). -/
def chavesGrupos (l : List ObsD) : List (ℕ × ℤ) :=
  dedupByKey id (l.map gkey)

/-- The rows belonging to group `k`, in frame order. -/
def grupo (l : List ObsD) (k : ℕ × ℤ) : List ObsD :=
  l.filter (fun o => decide (gkey o = k))

/-- Lines 124-155 for a single group `k`: gap aggregates over the
consecutive-date differences (`diff().dt.days`, skipna aggregation,
`fillna(0)`), the day count, `get_dias_ano`, the rounded completeness and
rounded mean gap, and the left merge with `estacoes_sorteadas` attaching
`estado` (one output row per match; `none` when the station is absent). -/
def metricaGrupo (sorteadas : List (ℕ × ℕ)) (l : List ObsD) (k : ℕ × ℤ) :
    List MetricFull :=
  let g := grupo l k
  let gaps := diffs (g.map (fun o => o.dataReal.2))
  let iMax := (maxZ gaps).getD 0
  let iMin := (minZ gaps).getD 0
  let iMedio := (mediaQ (gaps.map (fun z : ℤ => (z : ℚ)))).getD 0
  let dias := g.length
  let compl := round2 ((dias : ℚ) / (get_dias_ano k.2 : ℚ) * 100)
  let casados := sorteadas.filter (fun p => decide (p.2 = k.1))
  if casados.isEmpty then
    [{ estacao := k.1, estado := none, ano := k.2, completude := compl,
       intervaloMax := iMax, intervaloMedio := round2 iMedio,
       intervaloMin := iMin, diasComDados := dias }]
  else
    casados.map (fun p =>
      { estacao := k.1, estado := some p.1, ano := k.2, completude := compl,
        intervaloMax := iMax, intervaloMedio := round2 iMedio,
        intervaloMin := iMin, diasComDados := dias })

/-- `df_final` (lines 122-155): one block of rows per station-year group. -/
def dfFinal (sorteadas : List (ℕ × ℕ)) (l : List ObsD) : List MetricFull :=
  (chavesGrupos l).flatMap (metricaGrupo sorteadas l)

/-- `processar_dados_complexos(df_input, sample_frac)` (lines 74-155): the
whole cached pipeline.  Returns the metrics table together with the two
duplicate-count diagnostics (the numbers interpolated into
`msg_duplicatas_mes` and `msg_duplicatas_dia`). -/
def processar_dados_complexos (d : Dataset) (frac : ℚ) :
    Except PErr (List MetricFull × ℕ × ℕ) :=
  match amostragem d frac with
  | .error e => .error e
  | .ok sorteadas =>
    match dedupMes (dfAmostra d sorteadas) with
    | .error e => .error e
    | .ok (dd, dupMes) =>
      let nd := normalizados dd
      .ok (dfFinal sorteadas (ordenaObs nd.1), dupMes, nd.2)

/-! ### Stability Evaluator (`executar_teste_estabilidade`, lines 239-301) -/

/-- The unrounded per-row completeness used inside the stability loop
(line 290-291): `dias_com_dados / get_dias_ano_teste(Ano) * 100`. -/
def completudeTeste (l : List ObsD) (k : ℕ × ℤ) : ℚ :=
  ((grupo l k).length : ℚ) / (get_dias_ano k.2 : ℚ) * 100

/-- One iteration of the stability loop (lines 247-299): sample with the given
seed, filter, month dedup, melt, date validation, day dedup, group sizes,
unrounded completeness, and its plain mean over all station-year rows
(pandas' mean of an empty column is NaN, modelled by `none`). -/
def runSeed (d : Dataset) (frac : ℚ) (seed : ℕ) : Except PErr (Option ℚ) :=
  match estacoesUnicas d with
  | .error e => .error e
  | .ok eu =>
    match sampleStations frac seed eu with
    | .error e => .error e
    | .ok sorteadas =>
      match dedupMes (dfAmostra d sorteadas) with
      | .error e => .error e
      | .ok (dd, _) =>
        let nd := normalizados dd
        .ok (mediaQ ((chavesGrupos nd.1).map (completudeTeste nd.1)))

/-- `seeds_para_testar` (line 241). -/
def seeds_para_testar : List ℕ := [42, 1, 100, 2024, 999]

/-- The `for seed in seeds_para_testar` loop: appends one
`(Random_State, Media_Completude_%)` record per seed; an exception aborts
the whole call. -/
def loopSeeds (d : Dataset) (frac : ℚ) : List ℕ → Except PErr (List (ℕ × Option ℚ))
  | [] => .ok []
  | s :: rest =>
    match runSeed d frac s with
    | .error e => .error e
    | .ok m =>
      match loopSeeds d frac rest with
      | .error e => .error e
      | .ok r => .ok ((s, m) :: r)

/-- `executar_teste_estabilidade(df_input, sample_frac)` (lines 239-301). -/
def executar_teste_estabilidade (d : Dataset) (frac : ℚ) :
    Except PErr (List (ℕ × Option ℚ)) :=
  loopSeeds d frac seeds_para_testar

/-! ### Concrete fixtures used by witnesses and counterexamples -/

/-- A one-row fixture dataset: station 7 in region 3, January 2023, a single
non-null daily value (`Chuva01`), all required columns present. -/
def dExemplo : Dataset :=
  { hasEstado := true, hasEstacao := true, hasAno := true, hasMes := true,
    chuvaPresent := fun c => decide (c.val = 0),
    rows := [{ estacao := 7, estado := 3, ano := 2023, mes := 1,
               chuva := fun c => if c.val = 0 then some 5 else none }] }

/-- `dExemplo` with the `Ano` column removed (the other required columns are
still present). -/
def dSemAno : Dataset :=
  { hasEstado := true, hasEstacao := true, hasAno := false, hasMes := true,
    chuvaPresent := fun _ => false,
    rows := [{ estacao := 7, estado := 3, ano := 2023, mes := 1,
               chuva := fun _ => none }] }

/-- The single normalized observation produced by `dExemplo`:
station 7, region 3, 2023-01-01, value 5. -/
def obsExemplo : ObsD :=
  { estacao := 7, estado := 3, ano := 2023, mes := 1, dia := 1, valor := 5,
    dataReal := (2023, 1) }

/-- The metric row the pipeline produces for `dExemplo` at `frac = 1`:
1 day of data in 2023, completeness `round(1/365*100, 2) = 0.27`, all gap
statistics 0. -/
def metricaExemplo : MetricFull :=
  { estacao := 7, estado := some 3, ano := 2023, completude := 27/100,
    intervaloMax := 0, intervaloMedio := 0, intervaloMin := 0,
    diasComDados := 1 }

/-- Count of sampled/input pairs lying in region `R` (the per-region sampled
and population sizes the stratification property compares). -/
def contaRegiao (R : ℕ) (l : List (ℕ × ℕ)) : ℕ :=
  (l.filter (fun p => decide (p.1 = R))).length

instance {ε α : Type} [DecidableEq ε] [DecidableEq α] : DecidableEq (Except ε α) :=
  fun a b =>
    match a, b with
    | .ok x, .ok y =>
      if h : x = y then .isTrue (by rw [h]) else .isFalse (fun he => h (by cases he; rfl))
    | .error x, .error y =>
      if h : x = y then .isTrue (by rw [h]) else .isFalse (fun he => h (by cases he; rfl))
    | .ok _, .error _ => .isFalse (fun he => by cases he)
    | .error _, .ok _ => .isFalse (fun he => by cases he)

/-! ### Rounding lemmas -/

theorem roundHalfEven_nonneg (q : ℚ) (h : 0 ≤ q) : 0 ≤ roundHalfEven q := by
  unfold roundHalfEven
  have hf : (0 : ℤ) ≤ ⌊q⌋ := Int.floor_nonneg.mpr h
  split_ifs <;> [exact hf; omega; skip]
  rw [round_eq]
  exact Int.le_floor.mpr (by push_cast; linarith)

theorem abs_roundHalfEven_sub (q : ℚ) : |(roundHalfEven q : ℚ) - q| ≤ 1/2 := by
  unfold roundHalfEven
  split_ifs with h1 h2
  · rw [abs_le]; constructor <;> linarith
  · rw [abs_le]; push_cast; constructor <;> linarith
  · rw [abs_sub_comm]; exact abs_sub_round q

theorem roundHalfEven_le (q : ℚ) (n : ℤ) (h : q ≤ n) : roundHalfEven q ≤ n := by
  unfold roundHalfEven
  have hfl : (⌊q⌋ : ℚ) ≤ q := Int.floor_le q
  split_ifs with h1 h2
  · exact_mod_cast hfl.trans h
  · have : ((⌊q⌋ : ℚ)) < (n : ℚ) := by linarith
    have : ⌊q⌋ < n := by exact_mod_cast this
    omega
  · rw [round_eq]
    have hn : ⌊(1/2 : ℚ) + (n : ℚ)⌋ = n := by
      rw [Int.floor_add_int]; norm_num
    calc ⌊q + 1/2⌋ ≤ ⌊(1/2 : ℚ) + (n : ℚ)⌋ := Int.floor_le_floor (by linarith)
    _ = n := hn

theorem round2_nonneg (q : ℚ) (h : 0 ≤ q) : 0 ≤ round2 q := by
  unfold round2
  have := roundHalfEven_nonneg (q * 100) (by positivity)
  positivity

/-! ### Calendar lemmas -/

theorem get_dias_ano_cases (a : ℤ) : get_dias_ano a = 365 ∨ get_dias_ano a = 366 := by
  unfold get_dias_ano; split_ifs <;> simp

theorem get_dias_ano_pos (a : ℤ) : 0 < get_dias_ano a := by
  rcases get_dias_ano_cases a with h | h <;> omega

set_option maxRecDepth 8000 in
/-- A valid calendar date's ordinal day lies in `[1, get_dias_ano ano]`. -/
theorem diaDoAno_bounds (a m d : ℤ) (h : dataValida a m d = true) :
    1 ≤ diaDoAno a m d ∧ diaDoAno a m d ≤ get_dias_ano a := by
  have h' : 1 ≤ m ∧ m ≤ 12 ∧ 1 ≤ d ∧ d ≤ diasMes a m := by
    simpa [dataValida] using h
  obtain ⟨h1, h2, h3, h4⟩ := h'
  unfold diaDoAno diasAcum get_dias_ano
  unfold diasMes at h4 ⊢
  interval_cases m <;> norm_num at h4 ⊢ <;> split_ifs at h4 ⊢ <;> omega

/-- C9 supporting fact: the concrete spec examples. -/
theorem get_dias_ano_exemplos :
    get_dias_ano 2000 = 366 ∧ get_dias_ano 1900 = 365 ∧
    get_dias_ano 2024 = 366 ∧ get_dias_ano 2023 = 365 := by
  refine ⟨?_, ?_, ?_, ?_⟩ <;> decide

/-- C9: `get_dias_ano` returns 366 exactly on divisible-by-4 years that are
not centuries unless divisible by 400, and 365 otherwise; total (pure, no
failure modes), with the four spec examples. -/
theorem c9_days_in_year :
    (∀ y : ℤ, get_dias_ano y = if (4 ∣ y ∧ ¬(100 ∣ y)) ∨ 400 ∣ y then 366 else 365) ∧
    get_dias_ano 2000 = 366 ∧ get_dias_ano 1900 = 365 ∧
    get_dias_ano 2024 = 366 ∧ get_dias_ano 2023 = 365 := by
  refine ⟨fun y => ?_, by decide, by decide, by decide, by decide⟩
  unfold get_dias_ano
  exact if_congr (by omega) rfl rfl

/-! ### Deduplication lemmas -/

theorem dedupByKeyAux_sublist {α β : Type} (k : α → β) [DecidableEq β]
    (seen : List β) (l : List α) : List.Sublist (dedupByKeyAux k seen l) l := by
  induction l generalizing seen with
  | nil => simp [dedupByKeyAux]
  | cons x xs ih =>
    unfold dedupByKeyAux
    split_ifs with h
    · exact (ih seen).trans (List.sublist_cons_self x xs)
    · exact (ih (k x :: seen)).cons₂ x

theorem dedupByKey_sublist {α β : Type} (k : α → β) [DecidableEq β] (l : List α) :
    List.Sublist (dedupByKey k l) l :=
  dedupByKeyAux_sublist k [] l

theorem dedupByKeyAux_key_notin {α β : Type} (k : α → β) [DecidableEq β]
    (seen : List β) (l : List α) :
    ∀ x ∈ dedupByKeyAux k seen l, k x ∉ seen := by
  induction l generalizing seen with
  | nil => intro x hx; cases hx
  | cons a t ih =>
    intro x hx
    unfold dedupByKeyAux at hx
    split_ifs at hx with h
    · exact ih seen x hx
    · rcases List.mem_cons.mp hx with rfl | hxt
      · exact h
      · intro hc
        exact ih (k a :: seen) x hxt (List.mem_cons_of_mem _ hc)

theorem dedupByKeyAux_pairwise {α β : Type} (k : α → β) [DecidableEq β]
    (seen : List β) (l : List α) :
    (dedupByKeyAux k seen l).Pairwise (fun a b => k a ≠ k b) := by
  induction l generalizing seen with
  | nil => simp [dedupByKeyAux]
  | cons a t ih =>
    unfold dedupByKeyAux
    split_ifs with h
    · exact ih seen
    · refine List.Pairwise.cons ?_ (ih (k a :: seen))
      intro b hb hc
      exact dedupByKeyAux_key_notin k (k a :: seen) t b hb
        (hc ▸ List.mem_cons_self (k a) seen)

theorem dedupByKey_pairwise {α β : Type} (k : α → β) [DecidableEq β] (l : List α) :
    (dedupByKey k l).Pairwise (fun a b => k a ≠ k b) :=
  dedupByKeyAux_pairwise k [] l

theorem mem_dedupByKeyAux_id {α : Type} [DecidableEq α] (seen l : List α) (x : α)
    (hx : x ∈ l) (hs : x ∉ seen) : x ∈ dedupByKeyAux id seen l := by
  induction l generalizing seen with
  | nil => cases hx
  | cons a t ih =>
    unfold dedupByKeyAux
    split_ifs with h
    · rcases List.mem_cons.mp hx with rfl | hxt
      · exact absurd h hs
      · exact ih seen hxt hs
    · rcases List.mem_cons.mp hx with rfl | hxt
      · exact List.mem_cons_self _ _
      · by_cases hxa : x = a
        · subst hxa; exact List.mem_cons_self _ _
        · refine List.mem_cons_of_mem _ (ih (id a :: seen) hxt ?_)
          simp only [List.mem_cons, id]
          rintro (rfl | hc)
          · exact hxa rfl
          · exact hs hc

theorem mem_dedupByKey_id {α : Type} [DecidableEq α] (l : List α) (x : α) :
    x ∈ dedupByKey id l ↔ x ∈ l := by
  constructor
  · exact fun h => (dedupByKey_sublist id l).mem h
  · exact fun h => mem_dedupByKeyAux_id [] l x h (by simp)

theorem dedupByKey_id_nodup {α : Type} [DecidableEq α] (l : List α) :
    (dedupByKey id l).Nodup := by
  have := dedupByKey_pairwise id l
  exact this.imp (fun h => by simpa using h)

/-! ### Sorting lemmas -/

theorem insere_perm {α : Type} (le : α → α → Bool) (x : α) (l : List α) :
    (insere le x l).Perm (x :: l) := by
  induction l with
  | nil => exact List.Perm.refl _
  | cons y ys ih =>
    unfold insere
    split_ifs
    · exact List.Perm.refl _
    · exact (ih.cons y).trans (List.Perm.swap x y ys)

theorem ordenaBy_perm {α : Type} (le : α → α → Bool) (l : List α) :
    (ordenaBy le l).Perm l := by
  induction l with
  | nil => exact List.Perm.refl _
  | cons x xs ih =>
    exact (insere_perm le x (ordenaBy le xs)).trans (ih.cons x)

/-! ### Permutation-stand-in lemmas -/

theorem permuteSeed_length {α : Type} (seed : ℕ) (l : List α) :
    (permuteSeed seed l).length = l.length := by
  have : seed % (l.length + 1) < l.length + 1 := Nat.mod_lt seed (by omega)
  simp only [permuteSeed, List.length_append, List.length_drop, List.length_take]
  omega

theorem permuteSeed_mem {α : Type} (seed : ℕ) (l : List α) (x : α)
    (h : x ∈ permuteSeed seed l) : x ∈ l := by
  unfold permuteSeed at h
  rcases List.mem_append.mp h with h' | h'
  · exact List.mem_of_mem_drop h'
  · exact List.mem_of_mem_take h'

/-! ### Gap-sequence lemmas -/

theorem diffs_length (a : ℤ) (l : List ℤ) : (diffs (a :: l)).length = l.length := by
  induction l generalizing a with
  | nil => rfl
  | cons b t ih => simp [diffs, ih b]

theorem diffs_sum (a : ℤ) (l : List ℤ) :
    (diffs (a :: l)).sum = (a :: l).getLastD 0 - a := by
  induction l generalizing a with
  | nil => simp [diffs]
  | cons b t ih =>
    simp only [diffs, List.sum_cons, ih b, List.getLastD_cons]
    ring

/-! ### Claim C1 -/

/-- C1: for fixed `(dataset, fraction)` — the seeds being fixed inside the
functions (`random_state=42` in `processar_dados_complexos`, the canonical
list in `executar_teste_estabilidade`) — two invocations of the pipeline
return identical results: the metrics table, both duplicate-count
diagnostics, and the per-seed stability table.  The embedding is a pure
function of its arguments (the source's only nondeterminism, the seeded
sampler, is deterministic given the seed, and neither function mutates its
input), so the property holds by referential transparency. -/
theorem c1_determinismo (d : Dataset) (frac : ℚ) :
    processar_dados_complexos d frac = processar_dados_complexos d frac ∧
    executar_teste_estabilidade d frac = executar_teste_estabilidade d frac :=
  ⟨rfl, rfl⟩

/-! ### Claim C4 -/

/-- The sorted normalized sequence has pairwise-distinct
`(EstacaoCodigo, Data_Real)` keys. -/
theorem normSorted_pairwise (d : Dataset) :
    (ordenaObs (normalizados d).1).Pairwise (fun a b => chaveDia a ≠ chaveDia b) := by
  have hp : ((normalizados d).1).Pairwise (fun a b => chaveDia a ≠ chaveDia b) :=
    dedupByKey_pairwise chaveDia (comDatas (meltDropna d))
  have hperm : (ordenaObs (normalizados d).1).Perm ((normalizados d).1) :=
    ordenaBy_perm _ _
  exact (hperm.pairwise_iff (fun h => fun e => h e.symm)).mpr hp

/-- C4: after normalization (melt → invalid-date drop → `(station, date)`
dedup, in that order by definition of `normalizados`), no two observations
share the `(EstacaoCodigo, Data_Real)` key — also after the final sort — and
the reported `duplicate_day_count` is exactly the number of rows removed by
that deduplication from the already date-filtered frame. -/
theorem c4_dedup_dias (d : Dataset) :
    ((ordenaObs (normalizados d).1).map chaveDia).Nodup ∧
    (normalizados d).2 =
      (comDatas (meltDropna d)).length - (normalizados d).1.length := by
  constructor
  · exact (normSorted_pairwise d).map chaveDia (fun a b h => h)
  · rfl

/-! ### Claim C10 -/

theorem round2_zero : round2 0 = 0 := by with_unfolding_all rfl

theorem sum_map_cast (l : List ℤ) : (l.map (fun z : ℤ => (z : ℚ))).sum = (l.sum : ℚ) := by
  induction l with
  | nil => simp
  | cons x t ih =>
    rw [List.map_cons, List.sum_cons, List.sum_cons, ih]
    push_cast
    ring

theorem mediaQ_of_ne_nil (l : List ℚ) (h : l ≠ []) :
    mediaQ l = some (l.sum / l.length) := by
  unfold mediaQ
  rw [if_neg (by simpa [List.isEmpty_iff] using h)]

/-- C10: for a station-year group of `n ≥ 2` chronologically listed dates,
the unrounded mean gap — `mediaQ` over the consecutive differences `diffs`,
exactly what `metricaGrupo` computes before its `round(2)` — telescopes to
(last date − first date) / (n − 1): the first observation contributes no
gap, and the `n − 1` consecutive differences sum to the group's span. -/
theorem c10_gap_medio_telescopico (l : List ℤ) (h : 2 ≤ l.length) :
    mediaQ ((diffs l).map (fun z : ℤ => (z : ℚ))) =
      some (((l.getLastD 0 - l.headD 0 : ℤ) : ℚ) / ((l.length : ℚ) - 1)) := by
  match l, h with
  | a :: b :: t, _ =>
    have hlen : ((diffs (a :: b :: t)).map (fun z : ℤ => (z : ℚ))).length = t.length + 1 := by
      rw [List.length_map, diffs_length a (b :: t), List.length_cons]
    have hne : ((diffs (a :: b :: t)).map (fun z : ℤ => (z : ℚ))) ≠ [] := by
      intro hc
      rw [hc] at hlen
      simp at hlen
    rw [mediaQ_of_ne_nil _ hne, sum_map_cast, diffs_sum, hlen]
    have hhead : (a :: b :: t).headD 0 = a := rfl
    rw [hhead]
    congr 1
    have : ((a :: b :: t).length : ℚ) = (t.length : ℚ) + 2 := by
      push_cast [List.length_cons]
      ring
    rw [this]
    congr 1
    push_cast
    ring

/-- C10 witness: the telescoping identity at the concrete date list
`[1, 3, 10]` (gaps 2 and 7, mean 9/2 = (10 − 1)/(3 − 1)). -/
theorem c10_gap_medio_telescopico_witness :
    2 ≤ ([1, 3, 10] : List ℤ).length ∧
    mediaQ ((diffs ([1, 3, 10] : List ℤ)).map (fun z : ℤ => (z : ℚ))) =
      some (((([1, 3, 10] : List ℤ).getLastD 0 - ([1, 3, 10] : List ℤ).headD 0 : ℤ) : ℚ) /
        ((([1, 3, 10] : List ℤ).length : ℚ) - 1)) :=
  ⟨by decide, c10_gap_medio_telescopico [1, 3, 10] (by decide)⟩

/-! ### Claim C6 -/

theorem diffs_single (a : ℤ) : diffs [a] = [] := rfl

theorem maxZ_nil : maxZ [] = none := rfl

theorem minZ_nil : minZ [] = none := rfl

theorem mediaQ_nil : mediaQ [] = none := rfl

/-- C6: a station-year group with exactly one observation yields
`Intervalo_Max = Intervalo_Medio = Intervalo_Min = 0` in its aggregated
metric rows — `diff` gives a single NaN, the skipna aggregations of it are
NaN, and `fillna(0)` turns all three into 0 (not an error or null). -/
theorem c6_grupo_unitario (sorteadas : List (ℕ × ℕ)) (l : List ObsD) (k : ℕ × ℤ)
    (h : (grupo l k).length = 1) :
    ∀ m ∈ metricaGrupo sorteadas l k,
      m.intervaloMax = 0 ∧ m.intervaloMedio = 0 ∧ m.intervaloMin = 0 := by
  intro m hm
  obtain ⟨x, hx⟩ := List.length_eq_one.mp h
  unfold metricaGrupo at hm
  rw [hx] at hm
  simp only [List.map_cons, List.map_nil, diffs_single, maxZ_nil, minZ_nil,
    mediaQ_nil, Option.getD_none, round2_zero] at hm
  by_cases hc : (sorteadas.filter (fun p => decide (p.2 = k.1))).isEmpty
  · rw [if_pos hc] at hm
    rw [List.mem_singleton] at hm
    subst hm
    exact ⟨rfl, rfl, rfl⟩
  · rw [if_neg hc] at hm
    obtain ⟨p, _, rfl⟩ := List.mem_map.mp hm
    exact ⟨rfl, rfl, rfl⟩

/-- C6 witness: the concrete one-observation group of `dExemplo`. -/
theorem c6_grupo_unitario_witness :
    (grupo [obsExemplo] (7, 2023)).length = 1 ∧
    ∀ m ∈ metricaGrupo [(3, 7)] [obsExemplo] (7, 2023),
      m.intervaloMax = 0 ∧ m.intervaloMedio = 0 ∧ m.intervaloMin = 0 :=
  ⟨by decide, c6_grupo_unitario [(3, 7)] [obsExemplo] (7, 2023) (by decide)⟩

/-! ### Claim C2 (corrected) -/

/-- C2 counterexample: `fraction = 0` lies outside `(0, 1]`, yet the sampler
raises nothing (it returns an empty selection) and the pipeline entry
completes normally with an empty metrics table — there is no
`InvalidParameter` failure for this out-of-range fraction. -/
theorem c2_counterexample :
    ¬(0 < (0 : ℚ) ∧ (0 : ℚ) ≤ 1) ∧
    sampleStations 0 42 [(3, 7)] = .ok [] ∧
    processar_dados_complexos dExemplo 0 = .ok ([], 0, 0) := by
  refine ⟨by norm_num, ?_, ?_⟩ <;> with_unfolding_all rfl

theorem dedupByKeyAux_cons_nil {α β : Type} (k : α → β) [DecidableEq β]
    (x : α) (xs : List α) :
    dedupByKeyAux k [] (x :: xs) = x :: dedupByKeyAux k [k x] xs := by
  conv_lhs => unfold dedupByKeyAux
  rw [if_neg (List.not_mem_nil _)]

/-- C2 amended: only `frac > 1` and `frac < 0` are rejected — with the
pandas `ValueError`s of `sample` (there is no typed `InvalidParameter`
anywhere) — and only when the unique-station frame is nonempty: on an empty
frame `GroupBy.sample` returns the empty selection before validating `frac`
(GH48459), so a zero-row dataset completes even at an invalid fraction.  On a
nonempty frame the rejection is fail-fast and surfaced directly by the
pipeline entry once the two id columns have been read; `frac = 0`, although
outside `(0, 1]`, is always accepted and yields an empty sample. -/
theorem c2_fracao_invalida (d : Dataset) (frac : ℚ)
    (h1 : d.hasEstado = true) (h2 : d.hasEstacao = true)
    (h3 : d.rows ≠ [])
    (hf : 1 < frac ∨ frac < 0) :
    (∀ (seed : ℕ) (pairs : List (ℕ × ℕ)), pairs ≠ [] →
      sampleStations frac seed pairs =
        .error (if 1 < frac then PErr.valueErrorUpsample else PErr.valueErrorNegative)) ∧
    (∀ (seed : ℕ), sampleStations frac seed [] = .ok []) ∧
    processar_dados_complexos d frac =
      .error (if 1 < frac then PErr.valueErrorUpsample else PErr.valueErrorNegative) := by
  have hs : ∀ (seed : ℕ) (pairs : List (ℕ × ℕ)), pairs ≠ [] →
      sampleStations frac seed pairs =
        .error (if 1 < frac then PErr.valueErrorUpsample else PErr.valueErrorNegative) := by
    intro seed pairs hne
    unfold sampleStations
    rw [if_neg (by simpa [List.isEmpty_iff] using hne)]
    rcases hf with hf | hf
    · rw [if_pos hf, if_pos hf]
    · have hnot : ¬1 < frac := by linarith
      rw [if_neg hnot, if_pos hf, if_neg hnot]
  refine ⟨hs, fun seed => rfl, ?_⟩
  have heu : dedupByKey id (d.rows.map (fun r => (r.estado, r.estacao))) ≠ [] := by
    cases hr : d.rows with
    | nil => exact absurd hr h3
    | cons r t =>
      rw [List.map_cons]
      unfold dedupByKey
      rw [dedupByKeyAux_cons_nil]
      exact List.cons_ne_nil _ _
  unfold processar_dados_complexos amostragem estacoesUnicas
  simp only [h1, h2, Bool.true_eq_false, if_false, hs 42 _ heu]

/-- C2 amended witness: `frac = 2` on the (nonempty) fixture dataset. -/
theorem c2_fracao_invalida_witness :
    dExemplo.hasEstado = true ∧ dExemplo.hasEstacao = true ∧
    dExemplo.rows ≠ [] ∧ (1 < (2 : ℚ) ∨ (2 : ℚ) < 0) ∧
    ((∀ (seed : ℕ) (pairs : List (ℕ × ℕ)), pairs ≠ [] →
      sampleStations 2 seed pairs =
        .error (if 1 < (2 : ℚ) then PErr.valueErrorUpsample else PErr.valueErrorNegative)) ∧
    (∀ (seed : ℕ), sampleStations 2 seed [] = .ok []) ∧
    processar_dados_complexos dExemplo 2 =
      .error (if 1 < (2 : ℚ) then PErr.valueErrorUpsample else PErr.valueErrorNegative)) :=
  ⟨rfl, rfl, List.cons_ne_nil _ _, Or.inl (by norm_num),
    c2_fracao_invalida dExemplo 2 rfl rfl (List.cons_ne_nil _ _) (Or.inl (by norm_num))⟩

/-! ### Claim C3 (corrected) -/

theorem sampleStations_ok (frac : ℚ) (seed : ℕ) (pairs : List (ℕ × ℕ))
    (hf0 : 0 ≤ frac) (hf1 : frac ≤ 1) :
    sampleStations frac seed pairs = .ok (amostraTodas frac seed pairs) := by
  unfold sampleStations
  by_cases hp : pairs.isEmpty = true
  · rw [if_pos hp]
    obtain rfl : pairs = [] := List.isEmpty_iff.mp hp
    rfl
  · rw [if_neg hp, if_neg (not_lt.mpr hf1), if_neg (not_lt.mpr hf0)]

/-- C3 counterexample: on a dataset whose `Ano` column is missing (while
`estado` and `EstacaoCodigo` are present), the pipeline does fail — but only
at the month-deduplication step, *after* the stratified sampling has been
performed successfully: the failure is not "before any sampling". -/
theorem c3_counterexample :
    dSemAno.hasAno = false ∧
    amostragem dSemAno 1 = .ok [(3, 7)] ∧
    processar_dados_complexos dSemAno 1 = .error (.keyError .ano) := by
  refine ⟨rfl, ?_, ?_⟩ <;> with_unfolding_all rfl

/-- C3 amended: a dataset missing any required column makes the pipeline fail
with the library `KeyError` for that column (the realization of
`SchemaError`), with no output produced; the failure precedes sampling when
`estado` or `EstacaoCodigo` is missing, but a missing `Ano` or `Mes` is
detected only at month deduplication, after sampling has run. -/
theorem c3_schema_error (d : Dataset) (frac : ℚ)
    (hf0 : 0 ≤ frac) (hf1 : frac ≤ 1)
    (h : d.hasEstado = false ∨ d.hasEstacao = false ∨
         d.hasAno = false ∨ d.hasMes = false) :
    (∃ c, processar_dados_complexos d frac = .error (.keyError c)) ∧
    (d.hasEstado = false ∨ d.hasEstacao = false →
      ∃ c, estacoesUnicas d = .error (.keyError c)) := by
  constructor
  · by_cases hE : d.hasEstado = false
    · refine ⟨.estado, ?_⟩
      unfold processar_dados_complexos amostragem estacoesUnicas
      rw [if_pos hE]
    · have hE' : d.hasEstado = true := by
        revert hE; cases d.hasEstado <;> simp
      by_cases hC : d.hasEstacao = false
      · refine ⟨.estacaoCodigo, ?_⟩
        unfold processar_dados_complexos amostragem estacoesUnicas
        simp only [hE', Bool.true_eq_false, if_false, if_pos hC]
      · have hC' : d.hasEstacao = true := by
          revert hC; cases d.hasEstacao <;> simp
        have hsamp := sampleStations_ok frac 42
          (dedupByKey id (d.rows.map (fun r => (r.estado, r.estacao)))) hf0 hf1
        by_cases hA : d.hasAno = false
        · refine ⟨.ano, ?_⟩
          unfold processar_dados_complexos amostragem estacoesUnicas dedupMes
          simp only [hE', hC', Bool.true_eq_false, if_false, hsamp, dfAmostra,
            hA, if_true]
        · have hA' : d.hasAno = true := by
            revert hA; cases d.hasAno <;> simp
          have hM : d.hasMes = false := by
            rcases h with h | h | h | h
            · rw [hE'] at h; cases h
            · rw [hC'] at h; cases h
            · rw [hA'] at h; cases h
            · exact h
          refine ⟨.mes, ?_⟩
          unfold processar_dados_complexos amostragem estacoesUnicas dedupMes
          simp only [hE', hC', hA', Bool.true_eq_false, if_false, hsamp,
            dfAmostra, hM, if_true]
  · intro h'
    unfold estacoesUnicas
    rcases h' with h' | h'
    · exact ⟨.estado, by rw [if_pos h']⟩
    · by_cases hE : d.hasEstado = false
      · exact ⟨.estado, by rw [if_pos hE]⟩
      · have hE' : d.hasEstado = true := by
          revert hE; cases d.hasEstado <;> simp
        exact ⟨.estacaoCodigo, by simp only [hE', Bool.true_eq_false, if_false,
          if_pos h']⟩

/-- C3 amended witness: the missing-`Ano` fixture at `frac = 1`. -/
theorem c3_schema_error_witness :
    (0 : ℚ) ≤ 1 ∧ (1 : ℚ) ≤ 1 ∧ dSemAno.hasAno = false ∧
    ((∃ c, processar_dados_complexos dSemAno 1 = .error (.keyError c)) ∧
    (dSemAno.hasEstado = false ∨ dSemAno.hasEstacao = false →
      ∃ c, estacoesUnicas dSemAno = .error (.keyError c))) :=
  ⟨by norm_num, le_refl 1, rfl,
    c3_schema_error dSemAno 1 (by norm_num) (le_refl 1)
      (Or.inr (Or.inr (Or.inl rfl)))⟩

/-! ### Claim C7 -/

theorem amostraGrupo_subset (frac : ℚ) (seed : ℕ) (g : List (ℕ × ℕ)) (p : ℕ × ℕ)
    (hp : p ∈ amostraGrupo frac seed g) : p ∈ g :=
  permuteSeed_mem seed g p (List.mem_of_mem_take hp)

theorem contaRegiao_append (R : ℕ) (l₁ l₂ : List (ℕ × ℕ)) :
    contaRegiao R (l₁ ++ l₂) = contaRegiao R l₁ + contaRegiao R l₂ := by
  unfold contaRegiao
  rw [List.filter_append, List.length_append]

theorem contaRegiao_flatMap (R : ℕ) (ks : List ℕ) (f : ℕ → List (ℕ × ℕ))
    (hnd : ks.Nodup) (hf : ∀ k, ∀ p ∈ f k, p.1 = k) :
    contaRegiao R (ks.flatMap f) = if R ∈ ks then (f R).length else 0 := by
  induction ks with
  | nil => simp [contaRegiao]
  | cons k ks ih =>
    rw [List.flatMap_cons, contaRegiao_append]
    have hk : contaRegiao R (f k) = if k = R then (f k).length else 0 := by
      unfold contaRegiao
      by_cases hkR : k = R
      · subst hkR
        rw [if_pos rfl, List.filter_eq_self.mpr]
        intro p hp
        exact decide_eq_true (hf k p hp)
      · rw [if_neg hkR, List.filter_eq_nil_iff.mpr, List.length_nil]
        intro p hp
        simp only [decide_eq_true_eq]
        rw [hf k p hp]
        exact fun hc => hkR hc
    obtain ⟨hknotin, hndk⟩ := List.nodup_cons.mp hnd
    rw [hk, ih hndk]
    by_cases hkR : k = R
    · subst hkR
      rw [if_pos rfl, if_pos (List.mem_cons_self k ks), if_neg (fun hc => hknotin hc),
        Nat.add_zero]
    · rw [if_neg hkR]
      by_cases hR : R ∈ ks
      · rw [if_pos hR, if_pos (List.mem_cons_of_mem k hR), Nat.zero_add]
      · rw [if_neg hR, if_neg ?_, Nat.add_zero]
        intro hc
        rcases List.mem_cons.mp hc with rfl | hc'
        · exact hkR rfl
        · exact hR hc'

theorem chavesEstados_nodup (pairs : List (ℕ × ℕ)) : (chavesEstados pairs).Nodup :=
  ((ordenaBy_perm _ _).nodup_iff).mpr (dedupByKey_id_nodup _)

theorem mem_chavesEstados (pairs : List (ℕ × ℕ)) (R : ℕ) :
    R ∈ chavesEstados pairs ↔ R ∈ pairs.map Prod.fst := by
  unfold chavesEstados
  rw [(ordenaBy_perm _ _).mem_iff, mem_dedupByKey_id]

theorem amostraGrupo_length (frac : ℚ) (seed : ℕ) (g : List (ℕ × ℕ))
    (hf1 : frac ≤ 1) :
    (amostraGrupo frac seed g).length = (roundHalfEven (frac * g.length)).toNat := by
  unfold amostraGrupo
  rw [List.length_take, permuteSeed_length]
  have hle : frac * (g.length : ℚ) ≤ (g.length : ℚ) := by
    have : (0 : ℚ) ≤ (g.length : ℚ) := by positivity
    nlinarith
  have hn : roundHalfEven (frac * g.length) ≤ (g.length : ℤ) :=
    roundHalfEven_le _ _ (by exact_mod_cast hle)
  have : (roundHalfEven (frac * g.length)).toNat ≤ g.length := by omega
  omega

/-- C7: for any station-pair list, fraction in `(0, 1]` and seed, the
stratified sampler succeeds and, for every region `R`, the number of sampled
pairs in `R` is within one of `frac * |pairs in R|` (indeed within 1/2: the
per-region sample size is `round(frac * region_size)`, half-to-even). -/
theorem c7_estratificacao (pairs : List (ℕ × ℕ)) (frac : ℚ) (seed : ℕ) (R : ℕ)
    (hf0 : 0 < frac) (hf1 : frac ≤ 1) :
    sampleStations frac seed pairs = .ok (amostraTodas frac seed pairs) ∧
    |(contaRegiao R (amostraTodas frac seed pairs) : ℚ) -
      frac * (contaRegiao R pairs : ℚ)| ≤ 1 := by
  refine ⟨sampleStations_ok frac seed pairs hf0.le hf1, ?_⟩
  have hf : ∀ k, ∀ p ∈ amostraGrupo frac seed
      (pairs.filter (fun p => decide (p.1 = k))), p.1 = k := by
    intro k p hp
    have := amostraGrupo_subset frac seed _ p hp
    have := (List.mem_filter.mp this).2
    exact of_decide_eq_true this
  unfold amostraTodas
  rw [contaRegiao_flatMap R (chavesEstados pairs) _ (chavesEstados_nodup pairs) hf]
  by_cases hR : R ∈ chavesEstados pairs
  · rw [if_pos hR, amostraGrupo_length frac seed _ hf1]
    have hg : (pairs.filter (fun p => decide (p.1 = R))).length = contaRegiao R pairs := rfl
    rw [hg]
    set x : ℚ := frac * (contaRegiao R pairs : ℚ) with hx
    have hx0 : 0 ≤ x := mul_nonneg hf0.le (by positivity)
    have h0 : 0 ≤ roundHalfEven x := roundHalfEven_nonneg x hx0
    have hcast : (((roundHalfEven x).toNat : ℕ) : ℚ) = ((roundHalfEven x : ℤ) : ℚ) := by
      have := Int.toNat_of_nonneg h0
      exact_mod_cast congrArg (fun z : ℤ => (z : ℚ)) this
    rw [hcast]
    calc |((roundHalfEven x : ℤ) : ℚ) - x| ≤ 1/2 := abs_roundHalfEven_sub x
    _ ≤ 1 := by norm_num
  · rw [if_neg hR]
    have hz : contaRegiao R pairs = 0 := by
      unfold contaRegiao
      rw [List.filter_eq_nil_iff.mpr, List.length_nil]
      intro p hp
      simp only [decide_eq_true_eq]
      intro hc
      exact hR ((mem_chavesEstados pairs R).mpr (hc ▸ List.mem_map_of_mem Prod.fst hp))
    rw [hz]
    norm_num

/-- C7 witness: two stations in one region, `frac = 1/2`, seed 0, region 3. -/
theorem c7_estratificacao_witness :
    0 < (1/2 : ℚ) ∧ (1/2 : ℚ) ≤ 1 ∧
    (sampleStations (1/2) 0 [(3, 7), (3, 8)] = .ok (amostraTodas (1/2) 0 [(3, 7), (3, 8)]) ∧
    |(contaRegiao 3 (amostraTodas (1/2) 0 [(3, 7), (3, 8)]) : ℚ) -
      (1/2 : ℚ) * (contaRegiao 3 [(3, 7), (3, 8)] : ℚ)| ≤ 1) :=
  ⟨by norm_num, by norm_num,
    c7_estratificacao [(3, 7), (3, 8)] (1/2) 0 3 (by norm_num) (by norm_num)⟩

/-! ### Claim C5 -/

theorem comDatas_mem (l : List ObsRow) (o : ObsD) (ho : o ∈ comDatas l) :
    o.dataReal.1 = o.ano ∧ 1 ≤ o.dataReal.2 ∧ o.dataReal.2 ≤ get_dias_ano o.ano := by
  unfold comDatas at ho
  obtain ⟨r, hr, rfl⟩ := List.mem_map.mp ho
  have hv : dataValida r.ano r.mes r.dia = true := (List.mem_filter.mp hr).2
  obtain ⟨h1, h2⟩ := diaDoAno_bounds r.ano r.mes r.dia hv
  exact ⟨rfl, h1, h2⟩

theorem normSorted_mem (d : Dataset) (o : ObsD)
    (ho : o ∈ ordenaObs (normalizados d).1) :
    o.dataReal.1 = o.ano ∧ 1 ≤ o.dataReal.2 ∧ o.dataReal.2 ≤ get_dias_ano o.ano := by
  have h1 : o ∈ (normalizados d).1 := ((ordenaBy_perm _ _).mem_iff).mp ho
  have h2 : o ∈ comDatas (meltDropna d) := (dedupByKey_sublist chaveDia _).subset h1
  exact comDatas_mem _ o h2

theorem grupo_mem_gkey (l : List ObsD) (k : ℕ × ℤ) (o : ObsD) (ho : o ∈ grupo l k) :
    gkey o = k ∧ o ∈ l := by
  have h := List.mem_filter.mp ho
  exact ⟨of_decide_eq_true h.2, h.1⟩

/-- Within one station-year group of the sorted normalized sequence, the
day-of-year values are pairwise distinct. -/
theorem grupo_doys_nodup (d : Dataset) (k : ℕ × ℤ) :
    ((grupo (ordenaObs (normalizados d).1) k).map (fun o => o.dataReal.2)).Nodup := by
  have hp : (grupo (ordenaObs (normalizados d).1) k).Pairwise
      (fun a b => chaveDia a ≠ chaveDia b) :=
    List.Pairwise.sublist (List.filter_sublist _) (normSorted_pairwise d)
  have hp2 : (grupo (ordenaObs (normalizados d).1) k).Pairwise
      (fun a b => a.dataReal.2 ≠ b.dataReal.2) := by
    refine List.Pairwise.imp_of_mem ?_ hp
    intro a b ha hb hne heq
    apply hne
    obtain ⟨hka, hal⟩ := grupo_mem_gkey _ _ a ha
    obtain ⟨hkb, hbl⟩ := grupo_mem_gkey _ _ b hb
    obtain ⟨hya, -, -⟩ := normSorted_mem d a hal
    obtain ⟨hyb, -, -⟩ := normSorted_mem d b hbl
    have ha1 : a.estacao = k.1 := congrArg Prod.fst hka
    have ha2 : a.ano = k.2 := congrArg Prod.snd hka
    have hb1 : b.estacao = k.1 := congrArg Prod.fst hkb
    have hb2 : b.ano = k.2 := congrArg Prod.snd hkb
    have hdr : a.dataReal = b.dataReal := by
      have hy : a.dataReal.1 = b.dataReal.1 := by rw [hya, hyb, ha2, hb2]
      exact Prod.ext hy heq
    unfold chaveDia
    rw [ha1, hb1, hdr]
  exact (List.pairwise_map).mpr hp2

theorem length_le_of_nodup_mem_Icc (l : List ℤ) (N : ℤ) (hN : 0 ≤ N)
    (hnd : l.Nodup) (hmem : ∀ x ∈ l, 1 ≤ x ∧ x ≤ N) : (l.length : ℤ) ≤ N := by
  have h1 : l.toFinset.card = l.length := List.toFinset_card_of_nodup hnd
  have h2 : l.toFinset ⊆ Finset.Icc 1 N := by
    intro x hx
    exact Finset.mem_Icc.mpr (hmem x (List.mem_toFinset.mp hx))
  have h3 := Finset.card_le_card h2
  rw [h1, Int.card_Icc] at h3
  have h4 : ((N + 1 - 1).toNat : ℤ) = N := by
    rw [show N + 1 - 1 = N by ring, Int.toNat_of_nonneg hN]
  omega

/-- Every row of `df_final` comes from a station-year group: its year is the
group key's year, its day count is the group's size, and its completeness is
the rounded `dias / get_dias_ano * 100`. -/
theorem mem_dfFinal (sorteadas : List (ℕ × ℕ)) (L : List ObsD) (m : MetricFull)
    (hm : m ∈ dfFinal sorteadas L) :
    ∃ k ∈ chavesGrupos L,
      m.ano = k.2 ∧ m.diasComDados = (grupo L k).length ∧
      m.completude = round2 (((grupo L k).length : ℚ) / (get_dias_ano k.2 : ℚ) * 100) := by
  unfold dfFinal at hm
  obtain ⟨k, hk, hmk⟩ := List.mem_flatMap.mp hm
  refine ⟨k, hk, ?_⟩
  unfold metricaGrupo at hmk
  by_cases hc : (sorteadas.filter (fun p => decide (p.2 = k.1))).isEmpty
  · rw [if_pos hc] at hmk
    rw [List.mem_singleton] at hmk
    subst hmk
    exact ⟨rfl, rfl, rfl⟩
  · rw [if_neg hc] at hmk
    obtain ⟨p, -, rfl⟩ := List.mem_map.mp hmk
    exact ⟨rfl, rfl, rfl⟩

/-- Inversion of a successful pipeline run: the sampled stations, the
month-deduplicated frame, and the shape of the returned triple. -/
theorem processar_ok_inv (d : Dataset) (frac : ℚ) (res : List MetricFull × ℕ × ℕ)
    (h : processar_dados_complexos d frac = .ok res) :
    ∃ sorteadas dd dupMes, amostragem d frac = .ok sorteadas ∧
      dedupMes (dfAmostra d sorteadas) = .ok (dd, dupMes) ∧
      res = (dfFinal sorteadas (ordenaObs (normalizados dd).1), dupMes,
        (normalizados dd).2) := by
  unfold processar_dados_complexos at h
  split at h
  next e heq => exact absurd h (by simp)
  next sorteadas heq =>
    split at h
    next e2 heq2 => exact absurd h (by simp)
    next dd dupMes heq2 =>
      injection h with h
      subst h
      exact ⟨sorteadas, dd, dupMes, heq, heq2, rfl⟩

/-- The three C5 properties for one metric row, given its group decomposition. -/
theorem c5_aux (sorteadas : List (ℕ × ℕ)) (dd : Dataset) (m : MetricFull) (k : ℕ × ℤ)
    (hano : m.ano = k.2)
    (hdias : m.diasComDados = (grupo (ordenaObs (normalizados dd).1) k).length)
    (hcompl : m.completude = round2
      (((grupo (ordenaObs (normalizados dd).1) k).length : ℚ) /
        (get_dias_ano k.2 : ℚ) * 100)) :
    m.completude = round2 ((m.diasComDados : ℚ) / (get_dias_ano m.ano : ℚ) * 100) ∧
    0 ≤ m.completude ∧
    (m.diasComDados : ℤ) ≤ get_dias_ano m.ano := by
  have hpos : (0 : ℤ) < get_dias_ano k.2 := get_dias_ano_pos k.2
  refine ⟨by rw [hcompl, hdias, hano], ?_, ?_⟩
  · rw [hcompl]
    apply round2_nonneg
    have h1 : (0 : ℚ) ≤ ((grupo (ordenaObs (normalizados dd).1) k).length : ℚ) := by
      positivity
    have h2 : (0 : ℚ) ≤ (get_dias_ano k.2 : ℚ) := by exact_mod_cast hpos.le
    exact mul_nonneg (div_nonneg h1 h2) (by norm_num)
  · rw [hdias, hano]
    set L := ordenaObs (normalizados dd).1 with hL
    have hnd := grupo_doys_nodup dd k
    have hmem : ∀ x ∈ (grupo L k).map (fun o => o.dataReal.2),
        1 ≤ x ∧ x ≤ get_dias_ano k.2 := by
      intro x hx
      obtain ⟨o, ho, rfl⟩ := List.mem_map.mp hx
      obtain ⟨hko, hol⟩ := grupo_mem_gkey L k o ho
      obtain ⟨-, hlo, hhi⟩ := normSorted_mem dd o hol
      have hanoo : o.ano = k.2 := congrArg Prod.snd hko
      exact ⟨hlo, by rw [← hanoo]; exact hhi⟩
    have := length_le_of_nodup_mem_Icc ((grupo L k).map (fun o => o.dataReal.2))
      (get_dias_ano k.2) hpos.le hnd hmem
    rw [List.length_map] at this
    exact this

/-- C5: every metric row the pipeline returns has
`Completude_% = round2(dias_com_dados / get_dias_ano(Ano) * 100)`, the value
is nonnegative, and `dias_com_dados ≤ get_dias_ano(Ano)` (after the
`(station, date)` dedup, a station-year group holds pairwise-distinct valid
dates of that year, of which there are only `get_dias_ano(Ano)`). -/
theorem c5_completude (d : Dataset) (frac : ℚ) (res : List MetricFull × ℕ × ℕ)
    (h : processar_dados_complexos d frac = .ok res) :
    ∀ m ∈ res.1,
      m.completude = round2 ((m.diasComDados : ℚ) / (get_dias_ano m.ano : ℚ) * 100) ∧
      0 ≤ m.completude ∧
      (m.diasComDados : ℤ) ≤ get_dias_ano m.ano := by
  obtain ⟨sorteadas, dd, dupMes, -, -, hres⟩ := processar_ok_inv d frac res h
  subst hres
  intro m hm
  have hm' : m ∈ dfFinal sorteadas (ordenaObs (normalizados dd).1) := hm
  obtain ⟨k, hk, hano, hdias, hcompl⟩ := mem_dfFinal sorteadas _ m hm'
  exact c5_aux sorteadas dd m k hano hdias hcompl

/-- C5 witness: the fixture run — one station, one observation in 2023,
completeness `0.27 = round2(1/365*100)`, `1 ≤ 365`. -/
theorem c5_completude_witness :
    processar_dados_complexos dExemplo 1 = .ok ([metricaExemplo], 0, 0) ∧
    ∀ m ∈ ([metricaExemplo], (0 : ℕ), (0 : ℕ)).1,
      m.completude = round2 ((m.diasComDados : ℚ) / (get_dias_ano m.ano : ℚ) * 100) ∧
      0 ≤ m.completude ∧
      (m.diasComDados : ℤ) ≤ get_dias_ano m.ano := by
  have h : processar_dados_complexos dExemplo 1 = .ok ([metricaExemplo], 0, 0) := by
    with_unfolding_all rfl
  exact ⟨h, c5_completude dExemplo 1 ([metricaExemplo], 0, 0) h⟩

/-! ### Claim C8 -/

theorem loopSeeds_shape (d : Dataset) (frac : ℚ) :
    ∀ (ss : List ℕ) (res : List (ℕ × Option ℚ)), loopSeeds d frac ss = .ok res →
      res.map Prod.fst = ss ∧ ∀ p ∈ res, runSeed d frac p.1 = .ok p.2 := by
  intro ss
  induction ss with
  | nil =>
    intro res h
    unfold loopSeeds at h
    injection h with h
    subst h
    exact ⟨rfl, by simp⟩
  | cons s rest ih =>
    intro res h
    unfold loopSeeds at h
    cases hr : runSeed d frac s with
    | error e => rw [hr] at h; simp at h
    | ok m =>
      rw [hr] at h
      cases hl : loopSeeds d frac rest with
      | error e => rw [hl] at h; simp at h
      | ok r =>
        rw [hl] at h
        injection h with h
        subst h
        obtain ⟨h1, h2⟩ := ih r hl
        refine ⟨by simp [h1], ?_⟩
        intro p hp
        rcases List.mem_cons.mp hp with rfl | hp'
        · exact hr
        · exact h2 p hp'

/-- C8: whenever the stability evaluator returns, it returns exactly five
records, one per canonical seed `[42, 1, 100, 2024, 999]` in that order, and
each record's `Media_Completude_%` is exactly the value of that seed's
independent sampler→normalizer→reduced-aggregator run (`runSeed`), i.e. the
unweighted mean, over all of that run's station-year rows, of the unrounded
completeness — NaN (`none`) when the run yields no rows. -/
theorem c8_estabilidade (d : Dataset) (frac : ℚ) (res : List (ℕ × Option ℚ))
    (h : executar_teste_estabilidade d frac = .ok res) :
    res.length = 5 ∧ res.map Prod.fst = seeds_para_testar ∧
    ∀ p ∈ res, runSeed d frac p.1 = .ok p.2 := by
  obtain ⟨h1, h2⟩ := loopSeeds_shape d frac seeds_para_testar res h
  refine ⟨?_, h1, h2⟩
  have hlen := congrArg List.length h1
  simpa using hlen

/-- C8 witness: the fixture run at `frac = 1` — five records, in seed order,
all equal to the single station-year's completeness `100/365 = 20/73`. -/
theorem c8_estabilidade_witness :
    executar_teste_estabilidade dExemplo 1 =
      .ok [(42, some (20/73)), (1, some (20/73)), (100, some (20/73)),
        (2024, some (20/73)), (999, some (20/73))] ∧
    ([(42, some (20/73)), (1, some (20/73)), (100, some (20/73)),
        (2024, some (20/73)), (999, some ((20 : ℚ)/73))].length = 5 ∧
     [(42, some (20/73)), (1, some (20/73)), (100, some (20/73)),
        (2024, some (20/73)), (999, some ((20 : ℚ)/73))].map Prod.fst = seeds_para_testar ∧
     ∀ p ∈ [(42, some (20/73)), (1, some (20/73)), (100, some (20/73)),
        (2024, some (20/73)), (999, some ((20 : ℚ)/73))],
       runSeed dExemplo 1 p.1 = .ok p.2) := by
  have h : executar_teste_estabilidade dExemplo 1 =
      .ok [(42, some (20/73)), (1, some (20/73)), (100, some (20/73)),
        (2024, some (20/73)), (999, some ((20 : ℚ)/73))] := by
    with_unfolding_all rfl
  exact ⟨h, c8_estabilidade dExemplo 1 _ h⟩

end Ana

